import Mathlib

/-!
A shallow embedding of `src/mini-web-server.py` (danthelion/py-mini-web-server).

The server resolves an HTTP GET path against the filesystem, evaluates a fixed
ordered list of predicate/action cases, and writes exactly one response.  The
embedding models the filesystem, the child-process oracle, the string helpers
the code relies on (str.split, str.startswith, str.endswith, str.encode,
str(bytes), pathlib joining), and the request handler itself.  Python exceptions
raised by a case action are modelled with Except, and do_GET returns the list of
responses written on the wire (the code writes exactly once per request).
-/

namespace MiniWeb

/-- Splits a list of characters at a separator character; the accumulator holds
the current chunk reversed.  Ground model for Python str.split(sep) with a
one-character separator. -/
def splitCharAux (sep : Char) : List Char → List Char → List String
  | [], acc => [String.mk acc.reverse]
  | c :: cs, acc =>
    if c = sep then String.mk acc.reverse :: splitCharAux sep cs []
    else splitCharAux sep cs (c :: acc)

/-- Python str.split(sep) for a single-character separator: "".split(sep) is
[""] , and separators delimit possibly empty chunks. -/
def splitChar (sep : Char) (s : String) : List String :=
  splitCharAux sep s.data []

/-- Python sep.join(items). -/
def joinSep (sep : String) : List String → String
  | [] => ""
  | [p] => p
  | p :: q :: ps => p ++ sep ++ joinSep sep (q :: ps)

/-- Python str.startswith(pre). -/
def startswith (s pre : String) : Bool := pre.data.isPrefixOf s.data

/-- Python str.endswith(suf). -/
def endswith (s suf : String) : Bool := suf.data.reverse.isPrefixOf s.data.reverse

/-- Python s[1:] : drop the first character (empty stays empty). -/
def pyTail (s : String) : String :=
  match s.data with
  | [] => ""
  | _ :: cs => String.mk cs

/-- The path components pathlib keeps from a textual path: splitting on the
separator, pathlib drops empty components and single-dot components (dot-dot is
kept, never normalized). -/
def pathParts (s : String) : List String :=
  (splitChar '/' s).filter (fun c => !(c == "" || c == "."))

/-- Whether a textual path is absolute (posix: begins with the separator). -/
def isAbsPath (s : String) : Bool :=
  match s.data with
  | [] => false
  | c :: _ => c == '/'

/-- Model of pathlib Path(root) / rel rendered back to a string (posix rules;
root is taken absolute and normalized, as Path.cwd() is).  pathlib drops empty
and dot segments of rel, keeps dot-dot segments, and, when rel is itself absolute,
discards root entirely and anchors at the filesystem root. -/
def pyJoin (root rel : String) : String :=
  if isAbsPath rel then "/" ++ joinSep "/" (pathParts rel)
  else
    match pathParts rel with
    | [] => root
    | p :: ps => (if root == "/" then "" else root) ++ "/" ++ joinSep "/" (p :: ps)

/-- UTF-8 encoding of one character, as byte values.  Ground model for the
per-character behaviour of Python str.encode(). -/
def charUtf8 (c : Char) : List Nat :=
  if c.toNat < 128 then [c.toNat]
  else if c.toNat < 2048 then [192 + c.toNat / 64, 128 + c.toNat % 64]
  else if c.toNat < 65536 then
    [224 + c.toNat / 4096, 128 + c.toNat / 64 % 64, 128 + c.toNat % 64]
  else
    [240 + c.toNat / 262144, 128 + c.toNat / 4096 % 64,
     128 + c.toNat / 64 % 64, 128 + c.toNat % 64]

/-- Python str.encode(content): the UTF-8 bytes of a string.  These are the
bytes wfile.write actually puts on the wire in send_content. -/
def utf8Bytes (s : String) : List Nat := (s.data.map charUtf8).flatten

/-- Lower-case hexadecimal digit character for a value below 16. -/
def hexChar (n : Nat) : Char :=
  if n < 10 then Char.ofNat (48 + n) else Char.ofNat (87 + n)

/-- How Python repr of a bytes object renders one byte, given the chosen quote
character (as a byte value): backslash and the quote are escaped, tab, newline
and carriage return use their short escapes, printable ASCII is kept, anything
else becomes a hex escape. -/
def pyByteEscape (quote : Nat) (b : Nat) : List Char :=
  if b = 92 then ['\\', '\\']
  else if b = quote then ['\\', Char.ofNat quote]
  else if b = 9 then ['\\', 't']
  else if b = 10 then ['\\', 'n']
  else if b = 13 then ['\\', 'r']
  else if 32 ≤ b && b < 127 then [Char.ofNat b]
  else ['\\', 'x', hexChar (b / 16), hexChar (b % 16)]

/-- Python str(b) for a bytes object b: the letter b followed by the escaped
bytes between quotes, quoting with a single quote unless the bytes contain
one and no double quote. -/
def pyBytesRepr (bs : List Nat) : String :=
  let quote : Nat := if bs.contains 39 && !(bs.contains 34) then 34 else 39
  "b" ++ String.mk (Char.ofNat quote :: ((bs.map (pyByteEscape quote)).flatten ++ [Char.ofNat quote]))

/-- The filesystem and child-process oracles the server consults.  isFile,
isDir, pathExists model Path.is_file(), Path.is_dir(), Path.exists(); readFile
models open(p).read() (error carries str of the IOError); glob models
Path.glob with the recursive star pattern listing recursive entries as their textual absolute
paths, in enumeration order (error carries str of the OSError); runStdout
models subprocess.run(args, stdout=PIPE).stdout as byte values.  All requests
in one claim are evaluated against one fixed oracle. -/
structure FS where
  isFile : String → Bool
  isDir : String → Bool
  pathExists : String → Bool
  readFile : String → Except String String
  glob : String → Except String (List String)
  runStdout : List String → List Nat

/-- One response as written by send_content: the status line, the fixed
content-type header, the Content-Length header value (Python len of the
content string), and the content string whose UTF-8 bytes are the body put on
the wire. -/
structure Response where
  status : Nat
  contentType : String
  contentLength : Nat
  body : String
deriving DecidableEq

/-- The bytes wfile.write puts on the wire for a response:
str.encode(content). -/
def responseBytes (r : Response) : List Nat := utf8Bytes r.body

/-- The per-request state of RequestHandler that the cases read: self.path (the
raw request path) and self.full_path (the resolved absolute path). -/
structure RequestHandler where
  path : String
  full_path : String
deriving DecidableEq

/-- RequestHandler.send_content: status line, Content-type text/html,
Content-Length str(len(content)), then wfile.write(str.encode(content)). -/
def send_content (content : String) (status : Nat) : Response :=
  { status := status, contentType := "text/html",
    contentLength := content.length, body := content }

/-- RequestHandler.error_page template, after .format(path=..., msg=...). -/
def error_page (path msg : String) : String :=
  "\n        <html>\n        <body>\n        <h1>Error accessing " ++ path ++
  "</h1>\n        <p>" ++ msg ++
  "</p>\n        </body>\n        </html>\n        "

/-- RequestHandler.directory_listing_page template, after .format(items). -/
def directory_listing_page (items : String) : String :=
  "\n        <html>\n        <body>\n        <ul>\n        " ++ items ++
  "\n        </ul>\n        </body>\n        </html>\n        "

/-- RequestHandler.handle_error: format the error page with the raw request
path and the message, send it with status 404. -/
def handle_error (rh : RequestHandler) (msg : String) : Response :=
  send_content (error_page rh.path msg) 404

/-- BaseCase.handle_file: read the file and send its contents (status 200 by
default); on IOError fall back to handle_error with a descriptive message. -/
def handle_file (fs : FS) (rh : RequestHandler) (full_path_to_file : String) : Response :=
  match fs.readFile full_path_to_file with
  | .ok content => send_content content 200
  | .error msg =>
    handle_error rh ("\x27" ++ full_path_to_file ++ "\x27 cannot be read: " ++ msg)

/-- BaseCase.index_path: full_path joined with index.html. -/
def index_path (rh : RequestHandler) : String := pyJoin rh.full_path "index.html"

/-- RequestHandler.list_directory_contents: recursive glob, keep entries whose
textual (absolute) representation does not start with a dot, render each as an
li item, join with newlines into the listing template, send with status 200;
on OSError fall back to handle_error. -/
def list_directory_contents (fs : FS) (rh : RequestHandler)
    (full_path_to_directory : String) : Response :=
  match fs.glob full_path_to_directory with
  | .ok contents =>
    let bullets := (contents.filter (fun file => !(startswith file "."))).map
      (fun file => "<li>" ++ file ++ "</li>")
    send_content (directory_listing_page (joinSep "\n" bullets)) 200
  | .error msg =>
    handle_error rh ("\x27" ++ rh.path ++ "\x27 cannot be listed: " ++ msg)

/-- RequestHandler.run_cgi_script: cmd is "python " + path split on spaces,
the captured stdout bytes are sent as str(result.stdout) with status 200. -/
def run_cgi_script (fs : FS) (path_to_executable : String) : Response :=
  send_content
    (pyBytesRepr (fs.runStdout (splitChar ' ' ("python " ++ path_to_executable)))) 200

/-- The six case classes, in the order of RequestHandler.cases. -/
inductive Case where
  | CaseCGIFile
  | CaseNoFile
  | CaseExistingFile
  | CaseDirectoryIndexFile
  | CaseDirectoryNoIndexFile
  | CaseAlwaysFail
deriving DecidableEq

/-- The test predicate of each case.  CaseCGIFile.test reads
full_path.is_file without calling it, so that conjunct is the truthiness of a
bound method: constantly true; the only effective conjunct is
str(full_path).endswith(".py"). -/
def Case.test (fs : FS) (rh : RequestHandler) : Case → Bool
  | .CaseCGIFile => true && endswith rh.full_path ".py"
  | .CaseNoFile => !(fs.pathExists rh.full_path)
  | .CaseExistingFile => fs.isFile rh.full_path
  | .CaseDirectoryIndexFile => fs.isDir rh.full_path && fs.isFile (index_path rh)
  | .CaseDirectoryNoIndexFile => fs.isDir rh.full_path && !(fs.isFile (index_path rh))
  | .CaseAlwaysFail => true

/-- The act of each case: either the responses it writes, or the Python
exception it raises (carrying str of the exception).  CaseNoFile raises a
message whose f-string prefix is inside the quotes in the source, so the path
is not interpolated: the message is the literal text consisting of the
letter f, the quoted brace expression, and the words not found. -/
def Case.act (fs : FS) (rh : RequestHandler) : Case → Except String (List Response)
  | .CaseCGIFile => .ok [run_cgi_script fs rh.full_path]
  | .CaseNoFile => .error "f\x27\x7brequest_handler.path\x7d\x27 not found"
  | .CaseExistingFile => .ok [handle_file fs rh rh.full_path]
  | .CaseDirectoryIndexFile => .ok [handle_file fs rh (index_path rh)]
  | .CaseDirectoryNoIndexFile => .ok [list_directory_contents fs rh rh.full_path]
  | .CaseAlwaysFail => .error ("Unknown object \x27" ++ rh.path ++ "\x27")

/-- RequestHandler.cases, in source order. -/
def cases : List Case :=
  [.CaseCGIFile, .CaseNoFile, .CaseExistingFile,
   .CaseDirectoryIndexFile, .CaseDirectoryNoIndexFile, .CaseAlwaysFail]

/-- The for-loop of do_GET over a case list, instrumented: first component is
the list of cases whose test was evaluated (in evaluation order), second the
case whose test succeeded first (none if the list is exhausted). -/
def dispatchTrace (fs : FS) (rh : RequestHandler) : List Case → List Case × Option Case
  | [] => ([], none)
  | c :: rest =>
    if c.test fs rh then ([c], some c)
    else (c :: (dispatchTrace fs rh rest).1, (dispatchTrace fs rh rest).2)

/-- Running the act of the selected case under the do_GET exception handler: a raised
exception is converted by handle_error into one 404 error-page response. -/
def caseOutcome (fs : FS) (rh : RequestHandler) (c : Case) : List Response :=
  match c.act fs rh with
  | .ok rs => rs
  | .error msg => [handle_error rh msg]

/-- Path.cwd() / self.path[1:] : the resolved absolute path of a request. -/
def resolve_full_path (root raw : String) : String := pyJoin root (pyTail raw)

/-- The request-handler state at the start of do_GET for a given server root
(Path.cwd()) and raw request path. -/
def mkHandler (root raw : String) : RequestHandler :=
  { path := raw, full_path := resolve_full_path root raw }

/-- RequestHandler.do_GET: resolve the path, evaluate the cases in order, run
the act of the first matching case, and convert any raised exception into a single
error response.  The result is the list of responses written on the wire; if
no case had matched, nothing would be written. -/
def do_GET (fs : FS) (root raw : String) : List Response :=
  match (dispatchTrace fs (mkHandler root raw) cases).2 with
  | some c => caseOutcome fs (mkHandler root raw) c
  | none => []

/-- Decidable substring test: whether sub occurs contiguously in the list. -/
def containsSubAux (sub : List Char) : List Char → Bool
  | [] => sub.isPrefixOf []
  | c :: cs => sub.isPrefixOf (c :: cs) || containsSubAux sub cs

/-- Decidable test that sub occurs as a contiguous substring of s. -/
def containsSub (s sub : String) : Bool := containsSubAux sub.data s.data

/-- The last path component of a textual path (the own name of the entry). -/
def lastComponent (s : String) : String := (splitChar '/' s).getLastD ""

/-- A filesystem with no entries at all; the interpreter prints nothing. -/
def fsEmpty : FS :=
  { isFile := fun _ => false, isDir := fun _ => false, pathExists := fun _ => false,
    readFile := fun _ => .error "No such file or directory",
    glob := fun _ => .error "No such file or directory",
    runStdout := fun _ => [] }

/-- Server root /r holding a directory with a visible a.txt and a hidden
.secret, and no index.html. -/
def fsHidden : FS :=
  { isFile := fun p => p == "/r/a.txt" || p == "/r/.secret",
    isDir := fun p => p == "/r",
    pathExists := fun p => p == "/r" || p == "/r/a.txt" || p == "/r/.secret",
    readFile := fun _ => .error "Is a directory",
    glob := fun p => if p == "/r" then .ok ["/r/a.txt", "/r/.secret"] else .ok [],
    runStdout := fun _ => [] }

/-- Server root /r holding one ASCII text file a.txt. -/
def fsAscii : FS :=
  { isFile := fun p => p == "/r/a.txt", isDir := fun _ => false,
    pathExists := fun p => p == "/r/a.txt",
    readFile := fun p => if p == "/r/a.txt" then .ok "hello" else .error "No such file",
    glob := fun _ => .ok [], runStdout := fun _ => [] }

/-- Server root /r holding f.txt whose text is one non-ASCII character. -/
def fsUnicode : FS :=
  { isFile := fun p => p == "/r/f.txt", isDir := fun _ => false,
    pathExists := fun p => p == "/r/f.txt",
    readFile := fun p => if p == "/r/f.txt" then .ok "é" else .error "No such file",
    glob := fun _ => .ok [], runStdout := fun _ => [] }

/-- Server root /r holding a directory named d.py that contains an
index.html. -/
def fsPyDir : FS :=
  { isFile := fun p => p == "/r/d.py/index.html",
    isDir := fun p => p == "/r/d.py",
    pathExists := fun p => p == "/r/d.py" || p == "/r/d.py/index.html",
    readFile := fun p => if p == "/r/d.py/index.html" then .ok "<p>hi</p>"
      else .error "No such file",
    glob := fun _ => .ok [], runStdout := fun _ => [] }

/-- Server root /r holding a directory d whose index.html exists but cannot
be read. -/
def fsBadIndex : FS :=
  { isFile := fun p => p == "/r/d/index.html",
    isDir := fun p => p == "/r/d",
    pathExists := fun p => p == "/r/d" || p == "/r/d/index.html",
    readFile := fun _ => .error "Permission denied",
    glob := fun _ => .ok [], runStdout := fun _ => [] }

/-- Server root /r holding a directory d with a readable index.html. -/
def fsGoodIndex : FS :=
  { isFile := fun p => p == "/r/d/index.html",
    isDir := fun p => p == "/r/d",
    pathExists := fun p => p == "/r/d" || p == "/r/d/index.html",
    readFile := fun p => if p == "/r/d/index.html" then .ok "<p>hi</p>"
      else .error "No such file",
    glob := fun _ => .ok [], runStdout := fun _ => [] }

/-- Server root /r holding a script x.py; running it prints the two bytes
"hi". -/
def fsScript : FS :=
  { isFile := fun p => p == "/r/x.py", isDir := fun _ => false,
    pathExists := fun p => p == "/r/x.py",
    readFile := fun p => if p == "/r/x.py" then .ok "print(1)" else .error "No such file",
    glob := fun _ => .ok [],
    runStdout := fun a => if a == ["python", "/r/x.py"] then [104, 105] else [] }

/-- Server root /r holding one text file, used to exercise determinism. -/
def fsDet : FS :=
  { isFile := fun p => p == "/r/a.txt", isDir := fun _ => false,
    pathExists := fun p => p == "/r/a.txt",
    readFile := fun p => if p == "/r/a.txt" then .ok "same" else .error "No such file",
    glob := fun _ => .ok [], runStdout := fun _ => [] }

/-- Server root /r holding a directory whose only recursive entry is the
hidden file .secret. -/
def fsDotted : FS :=
  { isFile := fun p => p == "/r/.secret",
    isDir := fun p => p == "/r",
    pathExists := fun p => p == "/r" || p == "/r/.secret",
    readFile := fun _ => .error "Is a directory",
    glob := fun p => if p == "/r" then .ok ["/r/.secret"] else .ok [],
    runStdout := fun _ => [] }

example : resolve_full_path "/r" "/a.txt" = "/r/a.txt" := by decide
example : resolve_full_path "/r" "/" = "/r" := by decide
example : resolve_full_path "/srv" "//etc/passwd" = "/etc/passwd" := by decide
example : pyBytesRepr [104, 105] = "b\x27hi\x27" := by decide
example : splitChar ' ' ("python " ++ "/r/x.py") = ["python", "/r/x.py"] := by decide

theorem mk_append_mk (a b : List Char) : String.mk a ++ String.mk b = String.mk (a ++ b) := rfl

theorem dispatchTrace_append (fs : FS) (rh : RequestHandler) (pre post : List Case) (c : Case)
    (hpre : ∀ x ∈ pre, x.test fs rh = false) (hc : c.test fs rh = true) :
    dispatchTrace fs rh (pre ++ c :: post) = (pre ++ [c], some c) := by
  induction pre with
  | nil => simp [dispatchTrace, hc]
  | cons x xs ih =>
    have hx : x.test fs rh = false := hpre x (List.mem_cons_self x xs)
    have ihh := ih fun y hy => hpre y (List.mem_cons_of_mem x hy)
    simp [dispatchTrace, hx, ihh]

theorem splitCharAux_ne_nil (sep : Char) (l acc : List Char) : splitCharAux sep l acc ≠ [] := by
  induction l generalizing acc with
  | nil => simp [splitCharAux]
  | cons c cs ih => by_cases h : c = sep <;> simp [splitCharAux, h, ih]

theorem joinSep_cons (sep x : String) (rest : List String) (h : rest ≠ []) :
    joinSep sep (x :: rest) = x ++ sep ++ joinSep sep rest := by
  cases rest with
  | nil => exact absurd rfl h
  | cons y ys => rfl

theorem joinSep_splitCharAux (sep : Char) (l acc : List Char) :
    joinSep (String.mk [sep]) (splitCharAux sep l acc) = String.mk (acc.reverse ++ l) := by
  induction l generalizing acc with
  | nil => simp [splitCharAux, joinSep]
  | cons c cs ih =>
    by_cases h : c = sep
    · subst h
      rw [splitCharAux, if_pos rfl,
        joinSep_cons _ _ _ (splitCharAux_ne_nil _ _ _), ih]
      simp [mk_append_mk, List.append_assoc]
    · rw [splitCharAux, if_neg h, ih]
      simp

theorem joinSep_splitChar (sep : Char) (s : String) :
    joinSep (String.mk [sep]) (splitChar sep s) = s := by
  rw [splitChar, joinSep_splitCharAux]
  rfl

theorem splitCharAux_no_sep (sep : Char) (l acc : List Char) (h : ∀ c ∈ l, c ≠ sep) :
    splitCharAux sep l acc = [String.mk (acc.reverse ++ l)] := by
  induction l generalizing acc with
  | nil => simp [splitCharAux]
  | cons c cs ih =>
    have hc : c ≠ sep := h c (List.mem_cons_self c cs)
    rw [splitCharAux, if_neg hc, ih _ fun x hx => h x (List.mem_cons_of_mem c hx)]
    simp

theorem isPrefixOf_append_left (p l₁ l₂ : List Char) (h : p.length ≤ l₁.length) :
    p.isPrefixOf (l₁ ++ l₂) = p.isPrefixOf l₁ := by
  induction p generalizing l₁ with
  | nil => simp [List.isPrefixOf]
  | cons x xs ih =>
    cases l₁ with
    | nil => simp at h
    | cons y ys =>
      show (x == y && xs.isPrefixOf (ys ++ l₂)) = (x == y && xs.isPrefixOf ys)
      rw [ih ys (Nat.le_of_succ_le_succ h)]

theorem endswith_append (a b suf : String) (h : suf.length ≤ b.length) :
    endswith (a ++ b) suf = endswith b suf := by
  rw [endswith, endswith, String.data_append, List.reverse_append,
    isPrefixOf_append_left]
  simpa using h

theorem pyJoin_clean_rel (x rel : String) (habs : isAbsPath rel = false)
    (hne : pathParts rel ≠ []) :
    pyJoin x rel = (if x == "/" then "" else x) ++ "/" ++ joinSep "/" (pathParts rel) := by
  rw [pyJoin, if_neg (by simp [habs])]
  obtain ⟨p, ps, hps⟩ := List.exists_cons_of_ne_nil hne
  rw [hps]

theorem pyJoin_index (x : String) :
    pyJoin x "index.html" = (if x == "/" then "" else x) ++ "/" ++ "index.html" := by
  have h := pyJoin_clean_rel x "index.html" (by decide) (by decide)
  have h2 : pathParts "index.html" = ["index.html"] := by decide
  rw [h, h2]
  rfl

theorem endswith_index_path_py (rh : RequestHandler) :
    endswith (index_path rh) ".py" = false := by
  rw [index_path, pyJoin_index, endswith_append _ _ _ (by decide)]
  decide

theorem startswith_dot_of_abs (s : String) (h : isAbsPath s = true) :
    startswith s "." = false := by
  rw [startswith]
  cases hd : s.data with
  | nil =>
    simp only [isAbsPath, hd] at h
    exact absurd h (by decide)
  | cons c cs =>
    simp only [isAbsPath, hd] at h
    have hc : c = '/' := by simpa using h
    subst hc
    simp [List.isPrefixOf]

theorem utf8len_aux (l : List Char) (h : ∀ c ∈ l, c.toNat < 128) :
    ((l.map charUtf8).flatten).length = l.length := by
  induction l with
  | nil => rfl
  | cons c cs ih =>
    have hc : c.toNat < 128 := h c (List.mem_cons_self c cs)
    simp [charUtf8, hc, ih fun x hx => h x (List.mem_cons_of_mem c hx)]

theorem utf8Bytes_length_ascii (s : String) (h : ∀ c ∈ s.data, c.toNat < 128) :
    (utf8Bytes s).length = s.length := utf8len_aux s.data h

theorem joinSep_mem_split (sep x : String) (l : List String) (h : x ∈ l) :
    ∃ p q : String, joinSep sep l = p ++ x ++ q := by
  induction l with
  | nil => simp at h
  | cons y ys ih =>
    rcases List.mem_cons.mp h with rfl | hmem
    · cases ys with
      | nil => exact ⟨"", "", by simp [joinSep]⟩
      | cons z zs =>
        exact ⟨"", sep ++ joinSep sep (z :: zs),
          by rw [joinSep_cons _ _ _ (by simp), String.append_assoc]; rfl⟩
    · have hne : ys ≠ [] := by rintro rfl; simp at hmem
      obtain ⟨p, q, hpq⟩ := ih hmem
      refine ⟨y ++ sep ++ p, q, ?_⟩
      rw [joinSep_cons _ _ _ hne, hpq]
      simp [String.append_assoc]

theorem mk_data (s : String) : String.mk s.data = s := rfl

theorem handle_file_shape (fs : FS) (rh : RequestHandler) (p : String) :
    ∃ content status, handle_file fs rh p = send_content content status ∧
      (status = 200 ∨ status = 404) := by
  rw [handle_file]
  cases fs.readFile p with
  | ok content => exact ⟨content, 200, rfl, Or.inl rfl⟩
  | error m => exact ⟨_, 404, rfl, Or.inr rfl⟩

theorem list_directory_shape (fs : FS) (rh : RequestHandler) (p : String) :
    ∃ content status, list_directory_contents fs rh p = send_content content status ∧
      (status = 200 ∨ status = 404) := by
  rw [list_directory_contents]
  cases fs.glob p with
  | ok contents => exact ⟨_, 200, rfl, Or.inl rfl⟩
  | error m => exact ⟨_, 404, rfl, Or.inr rfl⟩

theorem caseOutcome_shape (fs : FS) (rh : RequestHandler) (c : Case) :
    ∃ content status, caseOutcome fs rh c = [send_content content status] ∧
      (status = 200 ∨ status = 404) := by
  cases c with
  | CaseCGIFile => exact ⟨_, 200, rfl, Or.inl rfl⟩
  | CaseNoFile => exact ⟨_, 404, rfl, Or.inr rfl⟩
  | CaseExistingFile =>
    obtain ⟨content, status, h, hs⟩ := handle_file_shape fs rh rh.full_path
    exact ⟨content, status, by simp [caseOutcome, Case.act, h], hs⟩
  | CaseDirectoryIndexFile =>
    obtain ⟨content, status, h, hs⟩ := handle_file_shape fs rh (index_path rh)
    exact ⟨content, status, by simp [caseOutcome, Case.act, h], hs⟩
  | CaseDirectoryNoIndexFile =>
    obtain ⟨content, status, h, hs⟩ := list_directory_shape fs rh rh.full_path
    exact ⟨content, status, by simp [caseOutcome, Case.act, h], hs⟩
  | CaseAlwaysFail => exact ⟨_, 404, rfl, Or.inr rfl⟩

theorem dispatchTrace_some_of_exists (fs : FS) (rh : RequestHandler) (l : List Case)
    (h : ∃ c ∈ l, c.test fs rh = true) :
    ∃ c, (dispatchTrace fs rh l).2 = some c := by
  induction l with
  | nil => simp at h
  | cons x xs ih =>
    by_cases hx : x.test fs rh = true
    · exact ⟨x, by simp [dispatchTrace, hx]⟩
    · obtain ⟨c, hc, ht⟩ := h
      rcases List.mem_cons.mp hc with rfl | hmem
      · exact absurd ht hx
      · obtain ⟨c', hc'⟩ := ih ⟨c, hmem, ht⟩
        exact ⟨c', by simp [dispatchTrace, hx, hc']⟩

theorem do_GET_shape (fs : FS) (root raw : String) :
    ∃ content status, do_GET fs root raw = [send_content content status] ∧
      (status = 200 ∨ status = 404) := by
  obtain ⟨c, hc⟩ := dispatchTrace_some_of_exists fs (mkHandler root raw) cases
    ⟨.CaseAlwaysFail, by simp [cases], rfl⟩
  obtain ⟨content, status, h, hs⟩ := caseOutcome_shape fs (mkHandler root raw) c
  exact ⟨content, status, by rw [do_GET, hc]; exact h, hs⟩

theorem do_GET_listing (fs : FS) (root raw : String) (entries : List String)
    (hpy : endswith (resolve_full_path root raw) ".py" = false)
    (hex : fs.pathExists (resolve_full_path root raw) = true)
    (hnf : fs.isFile (resolve_full_path root raw) = false)
    (hdir : fs.isDir (resolve_full_path root raw) = true)
    (hni : fs.isFile (index_path (mkHandler root raw)) = false)
    (hg : fs.glob (resolve_full_path root raw) = .ok entries) :
    do_GET fs root raw =
      [send_content (directory_listing_page (joinSep "\n"
        ((entries.filter fun file => !(startswith file ".")).map
          fun file => "<li>" ++ file ++ "</li>"))) 200] := by
  have hni' : fs.isFile (pyJoin (resolve_full_path root raw) "index.html") = false := hni
  have hpre : ∀ x ∈ [Case.CaseCGIFile, Case.CaseNoFile, Case.CaseExistingFile,
      Case.CaseDirectoryIndexFile], Case.test fs (mkHandler root raw) x = false := by
    intro x hx
    fin_cases hx <;> simp [Case.test, mkHandler, index_path, hpy, hex, hnf, hdir, hni']
  have hc : Case.test fs (mkHandler root raw) Case.CaseDirectoryNoIndexFile = true := by
    simp [Case.test, mkHandler, index_path, hdir, hni']
  have hd := dispatchTrace_append fs (mkHandler root raw)
    [Case.CaseCGIFile, Case.CaseNoFile, Case.CaseExistingFile, Case.CaseDirectoryIndexFile]
    [Case.CaseAlwaysFail] Case.CaseDirectoryNoIndexFile hpre hc
  rw [do_GET, show cases = [Case.CaseCGIFile, Case.CaseNoFile, Case.CaseExistingFile,
    Case.CaseDirectoryIndexFile] ++ [Case.CaseDirectoryNoIndexFile, Case.CaseAlwaysFail] from rfl,
    hd]
  show caseOutcome fs (mkHandler root raw) Case.CaseDirectoryNoIndexFile = _
  simp only [caseOutcome, Case.act]
  have hg' : fs.glob (mkHandler root raw).full_path = .ok entries := hg
  rw [list_directory_contents, hg']

theorem splitChar_python (p : String) (h : ∀ ch ∈ p.data, ch ≠ ' ') :
    splitChar ' ' ("python " ++ p) = ["python", p] := by
  rw [splitChar, String.data_append,
    show ("python ".data = ['p', 'y', 't', 'h', 'o', 'n', ' ']) from rfl]
  rw [List.cons_append, splitCharAux, if_neg (by decide)]
  rw [List.cons_append, splitCharAux, if_neg (by decide)]
  rw [List.cons_append, splitCharAux, if_neg (by decide)]
  rw [List.cons_append, splitCharAux, if_neg (by decide)]
  rw [List.cons_append, splitCharAux, if_neg (by decide)]
  rw [List.cons_append, splitCharAux, if_neg (by decide)]
  rw [List.cons_append, splitCharAux, if_pos rfl, List.nil_append]
  rw [splitCharAux_no_sep ' ' p.data _ h]
  rw [show (String.mk (List.reverse ['n', 'o', 'h', 't', 'y', 'p']) = "python") from rfl]
  rw [show (List.reverse ([] : List Char) = []) from rfl, List.nil_append, mk_data]

/-- C1: the six cases are evaluated in the fixed order of RequestHandler.cases
(CGI script, no file, existing file, directory with index, directory without
index, always-fail fallback); the first case whose test holds is the one whose
act produces the response: the evaluated tests are exactly those of the prefix
up to and including the first match, so no later case test or act runs. -/
theorem c1_first_match_wins (fs : FS) (root raw : String) (pre post : List Case) (c : Case)
    (hcases : cases = pre ++ c :: post)
    (hpre : ∀ x ∈ pre, Case.test fs (mkHandler root raw) x = false)
    (hc : Case.test fs (mkHandler root raw) c = true) :
    dispatchTrace fs (mkHandler root raw) cases = (pre ++ [c], some c) ∧
    do_GET fs root raw = caseOutcome fs (mkHandler root raw) c := by
  have hd : dispatchTrace fs (mkHandler root raw) cases = (pre ++ [c], some c) := by
    rw [hcases]
    exact dispatchTrace_append _ _ _ _ _ hpre hc
  refine ⟨hd, ?_⟩
  rw [do_GET, hd]

/-- C1 witness: on an empty filesystem, requesting /missing evaluates the CGI
test (false) then the no-file test (true) and stops: the trace is those two
cases and the no-file act produces the response. -/
theorem c1_first_match_wins_witness :
    dispatchTrace fsEmpty (mkHandler "/r" "/missing") cases =
      ([Case.CaseCGIFile] ++ [Case.CaseNoFile], some Case.CaseNoFile) ∧
    do_GET fsEmpty "/r" "/missing" =
      caseOutcome fsEmpty (mkHandler "/r" "/missing") Case.CaseNoFile :=
  c1_first_match_wins fsEmpty "/r" "/missing" [Case.CaseCGIFile]
    [Case.CaseExistingFile, Case.CaseDirectoryIndexFile,
     Case.CaseDirectoryNoIndexFile, Case.CaseAlwaysFail] Case.CaseNoFile rfl
    (by decide) (by decide)

/-- C2: every request produces exactly one response: some case always matches
because the fallback test is constantly true, and an exception raised by an
act is converted into a single 404 error page, so do_GET writes exactly one
content-length-prefixed response, with status 200 or 404. -/
theorem c2_exactly_one_response (fs : FS) (root raw : String) :
    ∃ r, do_GET fs root raw = [r] ∧ (r.status = 200 ∨ r.status = 404) := by
  obtain ⟨content, status, h, hs⟩ := do_GET_shape fs root raw
  exact ⟨send_content content status, h, hs⟩

/-- C3 counterexample: /missing.py exists nowhere on the empty filesystem, yet
the response status is 200, not 404: the buggy CGI test matches every path
ending in .py before the no-file case is consulted. -/
theorem c3_counterexample :
    fsEmpty.pathExists (resolve_full_path "/r" "/missing.py") = false ∧
    (do_GET fsEmpty "/r" "/missing.py").map Response.status = [200] ∧
    (do_GET fsEmpty "/r" "/missing.py").map Response.status ≠ [404] := by decide

/-- C3 (amended): for every request path that does not exist on the
filesystem AND whose resolved path does not end in .py, the response is a
single 404 whose body contains the literal raw request path and the words
"not found".  (Nonexistent paths ending in .py are instead captured by the
buggy CGI case and answered 200.) -/
theorem c3_not_found_404 (fs : FS) (root raw : String)
    (hpy : endswith (resolve_full_path root raw) ".py" = false)
    (hne : fs.pathExists (resolve_full_path root raw) = false) :
    ∃ r, do_GET fs root raw = [r] ∧ r.status = 404 ∧
      (∃ p q, r.body = p ++ raw ++ q) ∧ (∃ p q, r.body = p ++ "not found" ++ q) := by
  have hpre : ∀ x ∈ [Case.CaseCGIFile], Case.test fs (mkHandler root raw) x = false := by
    intro x hx
    have hxx : x = Case.CaseCGIFile := by simpa using hx
    subst hxx
    simp [Case.test, mkHandler, hpy]
  have hc : Case.test fs (mkHandler root raw) Case.CaseNoFile = true := by
    simp [Case.test, mkHandler, hne]
  have hd := dispatchTrace_append fs (mkHandler root raw) [Case.CaseCGIFile]
    [Case.CaseExistingFile, Case.CaseDirectoryIndexFile,
     Case.CaseDirectoryNoIndexFile, Case.CaseAlwaysFail] Case.CaseNoFile hpre hc
  refine ⟨handle_error (mkHandler root raw) "f\x27\x7brequest_handler.path\x7d\x27 not found",
    ?_, rfl, ?_, ?_⟩
  · rw [do_GET, show cases = [Case.CaseCGIFile] ++ Case.CaseNoFile ::
      [Case.CaseExistingFile, Case.CaseDirectoryIndexFile,
       Case.CaseDirectoryNoIndexFile, Case.CaseAlwaysFail] from rfl, hd]
    rfl
  · refine ⟨"\n        <html>\n        <body>\n        <h1>Error accessing ",
      "</h1>\n        <p>" ++ "f\x27\x7brequest_handler.path\x7d\x27 not found" ++
        "</p>\n        </body>\n        </html>\n        ", ?_⟩
    simp [handle_error, send_content, error_page, mkHandler, String.append_assoc]
  · refine ⟨"\n        <html>\n        <body>\n        <h1>Error accessing " ++ raw ++
      "</h1>\n        <p>" ++ "f\x27\x7brequest_handler.path\x7d\x27 ",
      "</p>\n        </body>\n        </html>\n        ", ?_⟩
    have hsplit : ("f\x27\x7brequest_handler.path\x7d\x27 not found" : String) =
        "f\x27\x7brequest_handler.path\x7d\x27 " ++ "not found" := by decide
    simp [handle_error, send_content, error_page, mkHandler, hsplit, String.append_assoc]

/-- C3 witness: requesting /missing on the empty filesystem yields one 404
response whose body embeds the raw path and the words "not found". -/
theorem c3_not_found_404_witness :
    ∃ r, do_GET fsEmpty "/r" "/missing" = [r] ∧ r.status = 404 ∧
      (∃ p q, r.body = p ++ "/missing" ++ q) ∧ (∃ p q, r.body = p ++ "not found" ++ q) :=
  c3_not_found_404 fsEmpty "/r" "/missing" (by decide) (by decide)

/-- C4 counterexample: /r is a directory without index.html containing a.txt
and the hidden .secret; the claim says the hidden entry produces no list item,
but the response body does contain the li item for /r/.secret (the filter
tests the absolute text, which starts with the separator, never a dot). -/
theorem c4_counterexample :
    (do_GET fsHidden "/r" "/").map Response.status = [200] ∧
    (do_GET fsHidden "/r" "/").map
      (fun r => containsSub r.body "<li>/r/.secret</li>") = [true] := by decide

/-- C4 (amended): for a directory (resolved path not ending in .py) without
index.html whose recursive entries are rendered as absolute paths, the
response is 200 and the body is the HTML list of ALL the enumerated entries:
because every absolute textual path starts with the separator, the
leading-dot exclusion filter excludes nothing, and a hidden entry such as
.secret is rendered as a list item like any other. -/
theorem c4_directory_listing (fs : FS) (root raw : String) (entries : List String)
    (hpy : endswith (resolve_full_path root raw) ".py" = false)
    (hex : fs.pathExists (resolve_full_path root raw) = true)
    (hnf : fs.isFile (resolve_full_path root raw) = false)
    (hdir : fs.isDir (resolve_full_path root raw) = true)
    (hni : fs.isFile (index_path (mkHandler root raw)) = false)
    (hg : fs.glob (resolve_full_path root raw) = .ok entries)
    (habs : ∀ e ∈ entries, isAbsPath e = true) :
    do_GET fs root raw =
      [send_content (directory_listing_page (joinSep "\n"
        (entries.map fun e => "<li>" ++ e ++ "</li>"))) 200] := by
  rw [do_GET_listing fs root raw entries hpy hex hnf hdir hni hg]
  have hfilter : (entries.filter fun file => !(startswith file ".")) = entries :=
    List.filter_eq_self.mpr fun e he => by
      rw [startswith_dot_of_abs e (habs e he)]; rfl
  rw [hfilter]

/-- C4 witness: the concrete scenario with a.txt and .secret under /r; both
entries appear as list items in the 200 response. -/
theorem c4_directory_listing_witness :
    do_GET fsHidden "/r" "/" =
      [send_content (directory_listing_page (joinSep "\n"
        (["/r/a.txt", "/r/.secret"].map fun e => "<li>" ++ e ++ "</li>"))) 200] :=
  c4_directory_listing fsHidden "/r" "/" ["/r/a.txt", "/r/.secret"]
    (by decide) (by decide) (by decide) (by decide) (by decide) (by rfl) (by decide)

/-- C5 counterexample: serving a one-character non-ASCII file, the
Content-Length header value is 1 (Python len of the string) while the body
written to the wire is 2 bytes of UTF-8, so the header does not equal the
byte length of the transported body. -/
theorem c5_counterexample :
    (do_GET fsUnicode "/r" "/f.txt").map
      (fun r => (r.contentLength, (responseBytes r).length)) = [(1, 2)] ∧
    (1 : Nat) ≠ 2 := by decide

/-- C5 (amended): for every response the server sends, the Content-Length
header value equals the number of characters (Python len) of the body string;
this equals the byte length of the UTF-8 body actually written to the wire
exactly when the body is pure ASCII, and undercounts it otherwise. -/
theorem c5_content_length (fs : FS) (root raw : String) (r : Response)
    (h : do_GET fs root raw = [r]) :
    r.contentLength = r.body.length ∧
    ((∀ c ∈ r.body.data, c.toNat < 128) → r.contentLength = (responseBytes r).length) := by
  obtain ⟨content, status, hs, _⟩ := do_GET_shape fs root raw
  rw [h] at hs
  have hr : r = send_content content status := by
    simpa using hs
  subst hr
  refine ⟨rfl, fun hascii => ?_⟩
  exact (utf8Bytes_length_ascii content hascii).symm

/-- C5 witness: serving the ASCII file a.txt, the header value equals both
the character count and the wire byte count of the body. -/
theorem c5_content_length_witness :
    (send_content "hello" 200).contentLength = (send_content "hello" 200).body.length ∧
    ((∀ c ∈ (send_content "hello" 200).body.data, c.toNat < 128) →
      (send_content "hello" 200).contentLength =
        (responseBytes (send_content "hello" 200)).length) :=
  c5_content_length fsAscii "/r" "/a.txt" (send_content "hello" 200) (by decide)

set_option maxRecDepth 4000 in
/-- C6 counterexample: two concrete filesystems on which the claim fails.
First, a directory named d.py containing index.html: the directory request is
captured by the CGI case (every path ending in .py matches) and answers with
the interpreter output, not the index page.  Second, a directory d whose
index.html exists but cannot be read: both requests give 404 error pages, but
the pages embed the two different raw request paths, so the responses
differ. -/
theorem c6_counterexample :
    (fsPyDir.isDir (resolve_full_path "/r" "/d.py") = true ∧
      fsPyDir.isFile (index_path (mkHandler "/r" "/d.py")) = true ∧
      do_GET fsPyDir "/r" "/d.py" ≠ do_GET fsPyDir "/r" "/d.py/index.html") ∧
    (fsBadIndex.isDir (resolve_full_path "/r" "/d") = true ∧
      fsBadIndex.isFile (index_path (mkHandler "/r" "/d")) = true ∧
      do_GET fsBadIndex "/r" "/d" ≠ do_GET fsBadIndex "/r" "/d/index.html") := by decide

/-- C6 (amended): for every directory whose resolved path does not end in .py
and which contains a regular index.html that reads successfully, the response
to the directory request equals the response to the request that resolves to
that index.html directly (both serve the index content with status 200).  The
two added restrictions are forced by the code: paths ending in .py are taken
by the CGI case first, and when the index read fails the two error pages
embed the two different raw request paths. -/
theorem c6_index_file_equiv (fs : FS) (root rawd rawf content : String)
    (hres : resolve_full_path root rawf = index_path (mkHandler root rawd))
    (hpy : endswith (resolve_full_path root rawd) ".py" = false)
    (hex : fs.pathExists (resolve_full_path root rawd) = true)
    (hnf : fs.isFile (resolve_full_path root rawd) = false)
    (hdir : fs.isDir (resolve_full_path root rawd) = true)
    (hif : fs.isFile (index_path (mkHandler root rawd)) = true)
    (hexf : fs.pathExists (index_path (mkHandler root rawd)) = true)
    (hread : fs.readFile (index_path (mkHandler root rawd)) = .ok content) :
    do_GET fs root rawd = do_GET fs root rawf := by
  have hfp : (mkHandler root rawf).full_path = index_path (mkHandler root rawd) := hres
  have hif' : fs.isFile (pyJoin (resolve_full_path root rawd) "index.html") = true := hif
  have hpreL : ∀ x ∈ [Case.CaseCGIFile, Case.CaseNoFile, Case.CaseExistingFile],
      Case.test fs (mkHandler root rawd) x = false := by
    intro x hx
    fin_cases hx <;> simp [Case.test, mkHandler, hpy, hex, hnf]
  have hcL : Case.test fs (mkHandler root rawd) Case.CaseDirectoryIndexFile = true := by
    simp [Case.test, mkHandler, index_path, hdir, hif']
  have hdL := dispatchTrace_append fs (mkHandler root rawd)
    [Case.CaseCGIFile, Case.CaseNoFile, Case.CaseExistingFile]
    [Case.CaseDirectoryNoIndexFile, Case.CaseAlwaysFail] Case.CaseDirectoryIndexFile hpreL hcL
  have hL : do_GET fs root rawd = [send_content content 200] := by
    rw [do_GET, show cases = [Case.CaseCGIFile, Case.CaseNoFile, Case.CaseExistingFile] ++
      Case.CaseDirectoryIndexFile :: [Case.CaseDirectoryNoIndexFile, Case.CaseAlwaysFail]
      from rfl, hdL]
    show caseOutcome fs (mkHandler root rawd) Case.CaseDirectoryIndexFile = _
    simp only [caseOutcome, Case.act]
    rw [handle_file, hread]
  have hpreR : ∀ x ∈ [Case.CaseCGIFile, Case.CaseNoFile],
      Case.test fs (mkHandler root rawf) x = false := by
    intro x hx
    fin_cases hx
    · simp only [Case.test]
      rw [hfp, endswith_index_path_py]
      rfl
    · simp only [Case.test]
      rw [hfp, hexf]
      rfl
  have hcR : Case.test fs (mkHandler root rawf) Case.CaseExistingFile = true := by
    simp only [Case.test]
    rw [hfp]
    exact hif
  have hdR := dispatchTrace_append fs (mkHandler root rawf)
    [Case.CaseCGIFile, Case.CaseNoFile]
    [Case.CaseDirectoryIndexFile, Case.CaseDirectoryNoIndexFile, Case.CaseAlwaysFail]
    Case.CaseExistingFile hpreR hcR
  have hR : do_GET fs root rawf = [send_content content 200] := by
    rw [do_GET, show cases = [Case.CaseCGIFile, Case.CaseNoFile] ++ Case.CaseExistingFile ::
      [Case.CaseDirectoryIndexFile, Case.CaseDirectoryNoIndexFile, Case.CaseAlwaysFail]
      from rfl, hdR]
    show caseOutcome fs (mkHandler root rawf) Case.CaseExistingFile = _
    simp only [caseOutcome, Case.act]
    rw [handle_file, hfp, hread]
  rw [hL, hR]

/-- C6 witness: directory /d with a readable index.html under root /r; the
directory response equals the direct /d/index.html response. -/
theorem c6_index_file_equiv_witness :
    do_GET fsGoodIndex "/r" "/d" = do_GET fsGoodIndex "/r" "/d/index.html" :=
  c6_index_file_equiv fsGoodIndex "/r" "/d" "/d/index.html" "<p>hi</p>"
    (by decide) (by decide) (by decide) (by decide) (by decide) (by decide)
    (by decide) (by rfl)

/-- C7 counterexample: the script /r/x.py prints the two stdout bytes 104 105
("hi"), but the response body is the four-character Python repr of those
bytes, so the bytes written to the wire are not the captured stdout bytes. -/
theorem c7_counterexample :
    (do_GET fsScript "/r" "/x.py").map Response.body = ["b\x27hi\x27"] ∧
    fsScript.runStdout ["python", "/r/x.py"] = [104, 105] ∧
    (do_GET fsScript "/r" "/x.py").map responseBytes ≠ [[104, 105]] := by decide

/-- C7 (amended): for every resolved path ending in .py that is a regular
file and contains no space, the child command line is exactly
["python", path] (the code splits "python " + path on single spaces, so only
then is the path the sole argument), and the single response has status 200
with body str(stdout): the textual Python repr of the captured stdout bytes
rather than the raw bytes. -/
theorem c7_cgi_script (fs : FS) (root raw : String)
    (hpy : endswith (resolve_full_path root raw) ".py" = true)
    (_hfile : fs.isFile (resolve_full_path root raw) = true)
    (hns : ∀ ch ∈ (resolve_full_path root raw).data, ch ≠ ' ') :
    splitChar ' ' ("python " ++ resolve_full_path root raw) =
      ["python", resolve_full_path root raw] ∧
    do_GET fs root raw =
      [send_content (pyBytesRepr (fs.runStdout
        ["python", resolve_full_path root raw])) 200] := by
  have hsplit := splitChar_python (resolve_full_path root raw) hns
  refine ⟨hsplit, ?_⟩
  have hc : Case.test fs (mkHandler root raw) Case.CaseCGIFile = true := by
    simp [Case.test, mkHandler, hpy]
  have hd := dispatchTrace_append fs (mkHandler root raw) []
    [Case.CaseNoFile, Case.CaseExistingFile, Case.CaseDirectoryIndexFile,
     Case.CaseDirectoryNoIndexFile, Case.CaseAlwaysFail] Case.CaseCGIFile
    (by simp) hc
  rw [do_GET, show cases = [] ++ Case.CaseCGIFile ::
    [Case.CaseNoFile, Case.CaseExistingFile, Case.CaseDirectoryIndexFile,
     Case.CaseDirectoryNoIndexFile, Case.CaseAlwaysFail] from rfl, hd]
  show [run_cgi_script fs (mkHandler root raw).full_path] = _
  rw [run_cgi_script]
  show [send_content (pyBytesRepr (fs.runStdout
    (splitChar ' ' ("python " ++ resolve_full_path root raw)))) 200] = _
  rw [hsplit]

/-- C7 witness: the concrete script under /r; the command line is
["python", "/r/x.py"] and the body is the repr of its stdout. -/
theorem c7_cgi_script_witness :
    splitChar ' ' ("python " ++ resolve_full_path "/r" "/x.py") =
      ["python", resolve_full_path "/r" "/x.py"] ∧
    do_GET fsScript "/r" "/x.py" =
      [send_content (pyBytesRepr (fsScript.runStdout
        ["python", resolve_full_path "/r" "/x.py"])) 200] :=
  c7_cgi_script fsScript "/r" "/x.py" (by decide) (by decide) (by decide)

/-- C8 counterexample: the raw path //etc/passwd begins with the separator,
yet the resolved path is /etc/passwd: the stripped remainder is itself
absolute, so the pathlib join discards the server root instead of joining the
remainder to it. -/
theorem c8_counterexample :
    isAbsPath "//etc/passwd" = true ∧
    resolve_full_path "/srv" "//etc/passwd" = "/etc/passwd" ∧
    resolve_full_path "/srv" "//etc/passwd" ≠ "/srv" ++ "/" ++ pyTail "//etc/passwd" := by
  decide

/-- C8 (amended): for every raw path beginning with a single separator whose
remainder has no empty and no single-dot segments, the resolved path equals
the raw path with the leading separator stripped, joined to the server root
(root, a separator, then the remainder verbatim), with .. segments preserved
unnormalized; when the stripped remainder itself begins with a separator
(raw begins with //) pathlib discards the root instead. -/
theorem c8_resolve_path (root raw : String)
    (_habs : isAbsPath raw = true)
    (hclean : ∀ c ∈ splitChar '/' (pyTail raw), c ≠ "" ∧ c ≠ ".")
    (hroot : root ≠ "/") :
    resolve_full_path root raw = root ++ "/" ++ pyTail raw := by
  have hrelabs : isAbsPath (pyTail raw) = false := by
    cases hd : (pyTail raw).data with
    | nil => simp [isAbsPath, hd]
    | cons c cs =>
      simp only [isAbsPath, hd]
      by_contra hcc
      have hc : c = '/' := by
        have := eq_true_of_ne_false hcc
        simpa using this
      subst hc
      have hmem : "" ∈ splitChar '/' (pyTail raw) := by
        rw [splitChar, hd, splitCharAux, if_pos rfl]
        exact List.mem_cons_self _ _
      exact (hclean "" hmem).1 rfl
  have hparts : pathParts (pyTail raw) = splitChar '/' (pyTail raw) := by
    rw [pathParts]
    apply List.filter_eq_self.mpr
    intro a ha
    obtain ⟨h1, h2⟩ := hclean a ha
    simp [h1, h2]
  have hne : pathParts (pyTail raw) ≠ [] := by
    rw [hparts, splitChar]
    exact splitCharAux_ne_nil _ _ _
  rw [resolve_full_path, pyJoin_clean_rel root (pyTail raw) hrelabs hne, hparts,
    if_neg (by simpa using hroot)]
  rw [show ("/" : String) = String.mk ['/'] from rfl, joinSep_splitChar]

/-- C8 witness: the raw path /../x resolves to /srv/../x when the root is
/srv: the remainder is joined verbatim to the root and the .. segment is not
normalized away. -/
theorem c8_resolve_path_witness :
    resolve_full_path "/srv" "/../x" = "/srv" ++ "/" ++ pyTail "/../x" :=
  c8_resolve_path "/srv" "/../x" (by decide) (by decide) (by decide)

/-- C9: evaluating the same GET request against pointwise-equal filesystem
and child-process oracles produces identical response lists: same status,
same headers, same body, so an unchanged filesystem yields byte-identical
responses on repeated requests. -/
theorem c9_idempotent (fs1 fs2 : FS) (root raw : String)
    (h1 : ∀ p, fs1.isFile p = fs2.isFile p)
    (h2 : ∀ p, fs1.isDir p = fs2.isDir p)
    (h3 : ∀ p, fs1.pathExists p = fs2.pathExists p)
    (h4 : ∀ p, fs1.readFile p = fs2.readFile p)
    (h5 : ∀ p, fs1.glob p = fs2.glob p)
    (h6 : ∀ a, fs1.runStdout a = fs2.runStdout a) :
    do_GET fs1 root raw = do_GET fs2 root raw := by
  obtain ⟨a1, a2, a3, a4, a5, a6⟩ := fs1
  obtain ⟨b1, b2, b3, b4, b5, b6⟩ := fs2
  have e1 : a1 = b1 := funext h1
  have e2 : a2 = b2 := funext h2
  have e3 : a3 = b3 := funext h3
  have e4 : a4 = b4 := funext h4
  have e5 : a5 = b5 := funext h5
  have e6 : a6 = b6 := funext h6
  subst e1 e2 e3 e4 e5 e6
  rfl

/-- C9 witness: repeating the same request against the same concrete
filesystem gives the identical response. -/
theorem c9_idempotent_witness : do_GET fsDet "/r" "/a.txt" = do_GET fsDet "/r" "/a.txt" :=
  c9_idempotent fsDet fsDet "/r" "/a.txt" (fun _ => rfl) (fun _ => rfl) (fun _ => rfl)
    (fun _ => rfl) (fun _ => rfl) (fun _ => rfl)

/-- C10: in a directory listing, every li item is rendered from the full
absolute textual path of the entry (the str of the glob result, server-root
prefix included), and the leading-dot exclusion is applied to that absolute
text rather than to the own name of the entry: an entry whose last component starts
with a dot but whose absolute path starts with the separator appears in the
body as an li item carrying its whole absolute path. -/
theorem c10_listing_absolute_paths (fs : FS) (root raw : String) (entries : List String)
    (e : String)
    (hpy : endswith (resolve_full_path root raw) ".py" = false)
    (hex : fs.pathExists (resolve_full_path root raw) = true)
    (hnf : fs.isFile (resolve_full_path root raw) = false)
    (hdir : fs.isDir (resolve_full_path root raw) = true)
    (hni : fs.isFile (index_path (mkHandler root raw)) = false)
    (hg : fs.glob (resolve_full_path root raw) = .ok entries)
    (he : e ∈ entries)
    (heabs : isAbsPath e = true)
    (_hname : startswith (lastComponent e) "." = true) :
    ∃ r p q, do_GET fs root raw = [r] ∧ r.body = p ++ ("<li>" ++ e ++ "</li>") ++ q := by
  have hkeep : e ∈ entries.filter fun file => !(startswith file ".") := by
    rw [List.mem_filter]
    exact ⟨he, by rw [startswith_dot_of_abs e heabs]; rfl⟩
  have hmem : ("<li>" ++ e ++ "</li>") ∈
      (entries.filter fun file => !(startswith file ".")).map
        (fun file => "<li>" ++ file ++ "</li>") :=
    List.mem_map_of_mem _ hkeep
  obtain ⟨p, q, hpq⟩ := joinSep_mem_split "\n" _ _ hmem
  refine ⟨_, "\n        <html>\n        <body>\n        <ul>\n        " ++ p,
    q ++ "\n        </ul>\n        </body>\n        </html>\n        ",
    do_GET_listing fs root raw entries hpy hex hnf hdir hni hg, ?_⟩
  show directory_listing_page (joinSep "\n"
    ((entries.filter fun file => !(startswith file ".")).map
      fun file => "<li>" ++ file ++ "</li>")) = _
  rw [directory_listing_page, hpq]
  simp [String.append_assoc]

/-- C10 witness: the hidden entry /r/.secret, whose own name starts with a
dot, appears in the listing body as the li item of its absolute path. -/
theorem c10_listing_absolute_paths_witness :
    ∃ r p q, do_GET fsDotted "/r" "/" = [r] ∧
      r.body = p ++ ("<li>" ++ "/r/.secret" ++ "</li>") ++ q :=
  c10_listing_absolute_paths fsDotted "/r" "/" ["/r/.secret"] "/r/.secret"
    (by decide) (by decide) (by decide) (by decide) (by decide) (by rfl)
    (by decide) (by decide) (by decide)

end MiniWeb
